import Mathlib

/-!
Verification development for the Obsidian vault management tool
(`vault_tree_manager.py`, `management_log.py`, `config.py`).

The Python source is shallowly embedded: paths are strings / lists of path
segments, the scanned directory snapshot is an inductive tree, wall-clock
times are rationals, and fallible operations return `Except`.  Every
definition is translated from the source file it names; definitions that
instead follow the specification's words (used to state a claim against the
code) carry a comment saying so.
-/

/-! ### Character-list string primitives

Python's `in` (substring), `str.startswith`, `str.endswith` and string
comparison, modelled on `String.data` so that everything reduces in the
kernel. -/

/-- Whether `needle` is an initial run of `hay`
(Python `hay.startswith(needle)` on character lists). -/
def chBeginsWith : List Char → List Char → Bool
  | [], _ => true
  | _ :: _, [] => false
  | a :: as, b :: bs => a == b && chBeginsWith as bs

/-- Whether `needle` occurs contiguously inside `hay`
(Python `needle in hay` for strings). -/
def chHasSub (needle : List Char) : List Char → Bool
  | [] => needle.isEmpty
  | b :: bs => chBeginsWith needle (b :: bs) || chHasSub needle bs

/-- Python `needle in hay` on `String`. -/
def strHasSub (needle hay : String) : Bool :=
  chHasSub needle.data hay.data

/-- Python `s.startswith(t)`. -/
def strBeginsWith (s t : String) : Bool :=
  chBeginsWith t.data s.data

/-- Python `s.endswith(t)`. -/
def strEndsWithPy (s t : String) : Bool :=
  chBeginsWith t.data.reverse s.data.reverse

/-- Lexicographic (code-point) `≤` on character lists: Python string
comparison, used by `sorted(...)` in `_generate_tree_structure`. -/
def chLe : List Char → List Char → Bool
  | [], _ => true
  | _ :: _, [] => false
  | a :: as, b :: bs => if a = b then chLe as bs else decide (a < b)

/-! ### Configuration (`config.py`) -/

/-- The list `SUPPORTED_EXTENSIONS = ['.md', '.txt']` from `config.py`. -/
def SUPPORTED_EXTENSIONS : List String := [".md", ".txt"]

/-- Python `any(s.endswith(ext) for ext in SUPPORTED_EXTENSIONS)` — used on file
names by the renderer and the counter, and on full event paths by the
watch event handler. -/
def hasSupportedExt (s : String) : Bool :=
  SUPPORTED_EXTENSIONS.any (fun ext => strEndsWithPy s ext)

/-- Python `pathlib.PurePath.suffix`: the substring of the final component from its
last dot, unless that dot is the component's first or last character
(Python: `i = name.rfind('.'); name[i:] if 0 < i < len(name) - 1 else ''`).
Used by `item.suffix == '.md'` in the source. -/
def pySuffix (name : String) : String :=
  let rev := name.data.reverse
  let after := rev.takeWhile (fun c => c ≠ '.')
  match rev.drop after.length with
  | [] => ""
  | _ :: pre =>
      if after.isEmpty || pre.isEmpty then "" else String.mk ('.' :: after.reverse)

/-! ### The directory snapshot -/

/-- A node of the scanned directory tree.  `dirDenied` is a directory whose
listing (`Path.iterdir`) raises `PermissionError`; `dirError` is a directory
whose listing raises some other exception with message `msg`.  Both satisfy
`is_dir()` — only listing their contents fails. -/
inductive FS where
  | file (name : String) : FS
  | dir (name : String) (children : List FS) : FS
  | dirDenied (name : String) : FS
  | dirError (name : String) (msg : String) : FS

/-- The node's final path component. -/
def FS.name : FS → String
  | .file n => n
  | .dir n _ => n
  | .dirDenied n => n
  | .dirError n _ => n

/-- Python `item.is_dir()`. -/
def FS.isDir : FS → Bool
  | .file _ => false
  | _ => true

/-! ### `VaultTreeManager._should_ignore` (vault_tree_manager.py:88-102) -/

/-- The set `self.ignore_patterns` from `VaultTreeManager.__init__`. -/
def ignorePatternsList : List String :=
  [".obsidian", ".git", ".DS_Store", "__pycache__", "node_modules", ".vscode", ".idea"]

/-- Source `_should_ignore`: some path component is in the ignore set or starts
with a dot.  `parts` is the full `Path.parts` of the tested path. -/
def shouldIgnore (parts : List String) : Bool :=
  parts.any (fun part => ignorePatternsList.contains part || strBeginsWith part ".")

/-! ### `VaultTreeManager._generate_tree_structure` (vault_tree_manager.py:104-174)

The Python function recursively lists a directory: filter out ignored
entries, partition into `directories = sorted(...)` and
`files = sorted(... supported extension ...)`, iterate
`directories + files` emitting one branch-marked line per entry and
recursing into subdirectories with an extended prefix.  `PermissionError`
while listing degrades to one marker line, any other exception to one
error line — the `try` encloses the whole listing, at every level
including the root call.

To keep the embedding structurally recursive (hence kernel-computable),
each child is paired with its own recursive renderer before the
filter/sort step; `linesLoop` then consumes the pairs in the sorted
order, exactly as the Python `for i, item in enumerate(all_items)` loop
does.  `sorted` on `pathlib.Path` values that share a parent directory
compares their final components, modelled by `chLe` on the names. -/

/-- The recursive listing function of one child, abstracted over the
child's `Path.parts` and line prefix. -/
abbrev RenderFn := List String → String → List String

/-- Relation used by `sorted(...)`: compare entries by name
(code-point lexicographic, as Python compares sibling paths). -/
def pairNameLe (p q : FS × RenderFn) : Prop :=
  chLe p.1.name.data q.1.name.data = true

instance : DecidableRel pairNameLe :=
  fun _ _ => inferInstanceAs (Decidable (_ = true))

/-- The marker `f"{prefix}├── ❌ 접근 권한 없음 / Permission Denied"` (line 170). -/
def deniedLine (pfx : String) : String :=
  pfx ++ "├── ❌ 접근 권한 없음 / Permission Denied"

/-- The marker `f"{prefix}├── ⚠️ 오류: {str(e)} / Error: {str(e)}"` (line 172). -/
def errorLine (pfx : String) (msg : String) : String :=
  pfx ++ "├── ⚠️ 오류: " ++ msg ++ " / Error: " ++ msg

/-- Lines 147-159: directory entries are `📁 **name**`, `.md` files
(`item.suffix == '.md'`) are `📝 name`, other files `📄 name`. -/
def itemLabel (x : FS) : String :=
  if x.isDir then "📁 **" ++ x.name ++ "**"
  else if pySuffix x.name = ".md" then "📝 " ++ x.name
  else "📄 " ++ x.name

/-- Lines 122-133: keep the children that `_should_ignore` does not drop
(`parts` is the listed directory's own `Path.parts`), split them into
directories and supported files, sort each group, and concatenate
directories-then-files. -/
def orderedPairs (parts : List String) (subs : List (FS × RenderFn)) :
    List (FS × RenderFn) :=
  let items := subs.filter (fun p => !shouldIgnore (parts ++ [p.1.name]))
  let dirs := List.insertionSort pairNameLe (items.filter (fun p => p.1.isDir))
  let fils := List.insertionSort pairNameLe
    (items.filter (fun p => !p.1.isDir && hasSupportedExt p.1.name))
  dirs ++ fils

/-- Lines 135-167: the `for i, item in enumerate(all_items)` loop.  The
last entry gets `└── ` and continuation `"    "`, every other entry
`├── ` and `"│   "`; a directory entry is followed by its recursively
generated sub-lines. -/
def linesLoop : List (FS × RenderFn) → List String → String → List String
  | [], _, _ => []
  | (x, f) :: rest, parts, pfx =>
      let isLast := rest.isEmpty
      let cur : String := if isLast then "└── " else "├── "
      let nxt : String := pfx ++ (if isLast then "    " else "│   ")
      (pfx ++ cur ++ itemLabel x) ::
        ((if x.isDir then f (parts ++ [x.name]) nxt else []) ++ linesLoop rest parts pfx)

mutual
/-- Source `_generate_tree_structure(directory, prefix)`: the lines for the
contents of `directory`, whose own `Path.parts` is `parts`.  A
permission failure on listing — at any level, the root included —
becomes the single marker line of line 170; any other listing failure
the error line of line 172.  (`iterdir` on a plain file would raise
`NotADirectoryError`, caught by the same generic `except`; that case is
unreachable from the recursion, which only descends into `is_dir()`
entries.) -/
def listingOf : FS → List String → String → List String
  | FS.file _, _, pfx => [errorLine pfx "[Errno 20] Not a directory"]
  | FS.dirDenied _, _, pfx => [deniedLine pfx]
  | FS.dirError _ m, _, pfx => [errorLine pfx m]
  | FS.dir _ cs, parts, pfx => linesLoop (orderedPairs parts (subFns cs)) parts pfx

/-- Pair every child with its recursive renderer. -/
def subFns : List FS → List (FS × RenderFn)
  | [] => []
  | c :: cs => (c, fun parts pfx => listingOf c parts pfx) :: subFns cs
end

/-! ### `VaultTreeManager._count_items` (vault_tree_manager.py:176-210)

`directory.rglob('*')` enumerates every descendant; each one is skipped
when `_should_ignore` holds, otherwise counted as a folder, or as a file
(always into `total_files`; into `md_files` when `item.suffix == '.md'`,
`elif` into `other_files` when the name ends in a supported extension).
A denied/erroring directory is itself enumerable by its parent but
contributes no descendants.  The surrounding `try/except: pass` swallows
any traversal error, so the function never raises. -/

structure TreeStats where
  total_folders : Nat
  total_files : Nat
  md_files : Nat
  other_files : Nat
deriving Repr, DecidableEq

def statsZero : TreeStats := ⟨0, 0, 0, 0⟩

def statsAdd (a b : TreeStats) : TreeStats :=
  ⟨a.total_folders + b.total_folders, a.total_files + b.total_files,
   a.md_files + b.md_files, a.other_files + b.other_files⟩

/-- Lines 201-206: the contribution of one non-ignored file. -/
def fileStats (name : String) : TreeStats :=
  ⟨0, 1,
   if pySuffix name = ".md" then 1 else 0,
   if pySuffix name = ".md" then 0 else if hasSupportedExt name then 1 else 0⟩

/-- One non-ignored directory entry (lines 199-200). -/
def folderStats : TreeStats := ⟨1, 0, 0, 0⟩

mutual
/-- The contribution of the node `x` (a child of the directory whose
`Path.parts` is `pp`) and of all its descendants to `_count_items`:
each enumerated entry is individually tested with `_should_ignore`. -/
def countNode (pp : List String) : FS → TreeStats
  | FS.file n => if shouldIgnore (pp ++ [n]) then statsZero else fileStats n
  | FS.dirDenied n => if shouldIgnore (pp ++ [n]) then statsZero else folderStats
  | FS.dirError n _ => if shouldIgnore (pp ++ [n]) then statsZero else folderStats
  | FS.dir n cs =>
      statsAdd (if shouldIgnore (pp ++ [n]) then statsZero else folderStats)
        (countList (pp ++ [n]) cs)

/-- Sum of `countNode` over a list of siblings. -/
def countList (pp : List String) : List FS → TreeStats
  | [] => statsZero
  | c :: cs => statsAdd (countNode pp c) (countList pp cs)
end

/-- Source `_count_items(self.vault_path)`: statistics over the strict
descendants of the root, whose own `Path.parts` is `rootParts`.  `rglob`
on an unlistable root yields nothing (the `except: pass` swallows any
error), leaving all four counters at zero. -/
def count_items (root : FS) (rootParts : List String) : TreeStats :=
  match root with
  | FS.dir _ cs => countList rootParts cs
  | _ => statsZero


/-! ### `VaultTreeEventHandler` (vault_tree_manager.py:18-53)

Filesystem events carry a source path and a directory flag.  Times are
rationals; `update_delay = 2.0` seconds.  `on_any_event` first discards
paths containing the substrings `'/.obsidian'` or `'/.git'` (lines
42-43, plain `in` on the path string), then accepts directory events and
events whose path ends in a supported extension (line 47).  On an
accepted event at time `t`: if `t - last_update > update_delay`, set
`last_update := t` and start `threading.Timer(update_delay, ...)`, i.e.
schedule one regeneration firing at `t + update_delay` (lines 48-53).
`last_update` is initialised to `time.time()` when the handler is
created (line 32).  Scheduled timers are modelled by their fire times;
nothing in the source ever stores or cancels a started `Timer`. -/

structure FsEvent where
  src_path : String
  is_directory : Bool

/-- Lines 42-43: the event-discard test — substring containment, two
patterns only. -/
def ignoredEvent (path : String) : Bool :=
  strHasSub "/.obsidian" path || strHasSub "/.git" path

/-- Line 47: the acceptance test applied after the discard test. -/
def acceptedEvent (e : FsEvent) : Bool :=
  e.is_directory || hasSupportedExt e.src_path

/-- The delay `self.update_delay = 2.0` (line 33). -/
def update_delay : ℚ := 2

/-- The debounce-relevant state of `VaultTreeEventHandler`:
`self.last_update` plus the fire times of every started (not yet fired)
`threading.Timer`. -/
structure WatchState where
  last_update : ℚ
  timers : List ℚ
deriving Repr, DecidableEq

/-- Handler state right after `VaultTreeEventHandler.__init__` at wall
time `t0`: `self.last_update = time.time()`, no timer started. -/
def initWatch (t0 : ℚ) : WatchState :=
  ⟨t0, []⟩

/-- Source `on_any_event(event)` delivered at wall time `t`. -/
def on_any_event (s : WatchState) (e : FsEvent) (t : ℚ) : WatchState :=
  if ignoredEvent e.src_path then s
  else if acceptedEvent e then
    if update_delay < t - s.last_update then
      { last_update := t, timers := s.timers ++ [t + update_delay] }
    else s
  else s

/-- Deliver a sequence of timestamped events in order. -/
def processEvents (s : WatchState) : List (FsEvent × ℚ) → WatchState
  | [] => s
  | (e, t) :: rest => processEvents (on_any_event s e t) rest

/-! ### `ManagementLogger` (management_log.py)

The sink state keeps the parsed JSON log (`none` = missing/unreadable
file) and whether writes to the log files currently succeed.
`log_activity` (lines 80-116) runs `_append_json_log`,
`_append_markdown_log` and `_update_statistics` with **no** exception
handling of its own; inside `_append_json_log` only the *read* of the
existing JSON file sits in a `try/except` (lines 127-132), while every
`open(..., 'w'/'a')` write in the three helpers is unprotected, so a
failing write raises out of `log_activity`.  Entry timestamps/durations
are irrelevant to the claims and omitted. -/

structure LogEntryM where
  command : String
  status : String
deriving Repr, DecidableEq

structure SinkState where
  json_entries : Option (List LogEntryM)
  write_ok : Bool
deriving Repr, DecidableEq

/-- Source `log_activity`: read the JSON log (read failure swallowed, lines
127-132), append the entry, keep the last 100 (lines 140-141), write the
JSON, markdown and statistics files (lines 145-146, 191-192, 237-238 —
any write failure raises to the caller of `log_activity`). -/
def logActivity (k : SinkState) (e : LogEntryM) : Except String SinkState :=
  let logs := k.json_entries.getD []
  if k.write_ok then
    let appended := logs ++ [e]
    let trimmed :=
      if appended.length > 100 then appended.drop (appended.length - 100) else appended
    .ok { json_entries := some trimmed, write_ok := k.write_ok }
  else .error "sink write failed"

/-! ### `VaultTreeManager` session state and public operations

`MgrState` models the fields of `VaultTreeManager` that the watch
session touches, plus process-level resource accounting: `observer` is
the handle currently stored in `self.observer` (numbered by creation
order), `observers_created` counts `Observer()` constructions,
`observer_running` whether the background listener threads are alive,
`pending_timers` the fire times of scheduled-but-unfired
`threading.Timer` regenerations (owned by the process, not by the
manager — the source never keeps a reference to one), `tree_writes` the
number of writes to the output file `볼트구조.md`, and `warnings` the
warning messages printed so far. -/

structure MgrState where
  is_watching : Bool
  observer : Option Nat
  observers_created : Nat
  observer_running : Bool
  pending_timers : List ℚ
  tree_writes : Nat
  warnings : List String
deriving Repr, DecidableEq

/-- Source `start_watching` (lines 355-410).  While a session is active (line
360) it only prints the warning and returns.  Otherwise it performs one
synchronous `update_tree_structure` (one output write — the logging it
performs is kept separate, see `start_watching_logged`), creates and
starts a fresh `Observer`, and flips `is_watching`. -/
def start_watching (s : MgrState) : MgrState :=
  if s.is_watching then
    { s with warnings := s.warnings ++ ["⚠️ 이미 감시 중입니다. / Already watching."] }
  else
    { s with
      tree_writes := s.tree_writes + 1,
      observer := some s.observers_created,
      observers_created := s.observers_created + 1,
      observer_running := true,
      is_watching := true }

/-- Source `stop_watching` (lines 412-451), success path.  When not watching
(line 417) it only prints the warning.  Otherwise `observer.stop()` and
`observer.join()` terminate the listener and `is_watching` is cleared.
Nothing touches `pending_timers`: the source holds no reference to any
started `threading.Timer` and never calls `cancel()`. -/
def stop_watching (s : MgrState) : MgrState :=
  if !s.is_watching || s.observer.isNone then
    { s with warnings := s.warnings ++ ["⚠️ 감시 중이 아닙니다. / Not currently watching."] }
  else
    { s with observer_running := false, is_watching := false }

/-- Source `stop_watching` including its activity logging (lines 430-451): the
success-path `log_activity` sits inside the `try`; if it raises, the
`except` block calls `log_activity` again — *outside* any handler — so a
second sink failure propagates to `stop_watching`'s caller. -/
def stop_watching_logged (s : MgrState) (k : SinkState) :
    Except String (MgrState × SinkState) :=
  if !s.is_watching || s.observer.isNone then
    .ok ({ s with warnings := s.warnings ++ ["⚠️ 감시 중이 아닙니다. / Not currently watching."] }, k)
  else
    let s' := { s with observer_running := false, is_watching := false }
    match logActivity k ⟨"stop_watching", "success"⟩ with
    | .ok k' => .ok (s', k')
    | .error _ =>
        match logActivity k ⟨"stop_watching", "error"⟩ with
        | .ok k'' => .ok (s', k'')
        | .error e2 => .error e2

/-- Source `start_watching` including its activity logging (lines 386-410),
with the same structure: success log inside the `try`, error log in the
`except` block outside any handler. -/
def start_watching_logged (s : MgrState) (k : SinkState) :
    Except String (MgrState × SinkState) :=
  if s.is_watching then
    .ok ({ s with warnings := s.warnings ++ ["⚠️ 이미 감시 중입니다. / Already watching."] }, k)
  else
    let s' := { s with
      tree_writes := s.tree_writes + 1,
      observer := some s.observers_created,
      observers_created := s.observers_created + 1,
      observer_running := true,
      is_watching := true }
    match logActivity k ⟨"start_watching", "success"⟩ with
    | .ok k' => .ok (s', k')
    | .error _ =>
        match logActivity k ⟨"start_watching", "error"⟩ with
        | .ok k'' => .ok (s', k'')
        | .error e2 => .error e2

/-! ### `generate_tree_markdown` and `update_tree_structure`
(vault_tree_manager.py:212-353)

`generate_tree_markdown` collects `_count_items` statistics (which never
raise), builds the markdown document around the `_generate_tree_structure`
lines (which never raise — every listing failure, the root's included,
already degraded to a marker line), and logs success.  Its `except`
clause logs the error and re-raises; since neither helper raises, the
only reachable exception source is the success-path `log_activity`
itself, whereupon the error-path `log_activity` runs unprotected.  The
fixed header/footer template text is abbreviated here to its
load-bearing parts (root path marker, the four counters, the fenced tree
body); the spec requires only their presence, not byte equality. -/

def renderDocument (root : FS) (stats : TreeStats) (lines : List String) : String :=
  String.intercalate "\n"
    (["# 🌳 옵시디언 볼트 구조",
      "| 📁 **총 폴더 수** / Total Folders | " ++ toString stats.total_folders ++ " |",
      "| 📄 **총 파일 수** / Total Files | " ++ toString stats.total_files ++ " |",
      "| 📝 **마크다운 파일** / Markdown Files | " ++ toString stats.md_files ++ " |",
      "| 📋 **기타 파일** / Other Files | " ++ toString stats.other_files ++ " |",
      "```",
      "🏠 " ++ root.name] ++ lines ++ ["```"])

/-- Source `generate_tree_markdown`: returns the produced document or the
propagated exception, together with the sink state afterwards. -/
def generate_tree_markdown (root : FS) (rootParts : List String) (k : SinkState) :
    Except String String × SinkState :=
  let stats := count_items root rootParts
  let lines := listingOf root rootParts ""
  let content := renderDocument root stats lines
  match logActivity k ⟨"generate_tree", "success"⟩ with
  | .ok k' => (.ok content, k')
  | .error e =>
      match logActivity k ⟨"generate_tree", "error"⟩ with
      | .ok k'' => (.error e, k'')
      | .error e2 => (.error e2, k)

/-- Source `update_tree_structure` (lines 335-353): the whole body sits in
`try ... except Exception: print(...)`, and
`open(self.tree_file, 'w')` runs only after `generate_tree_markdown()`
returned.  `file` is the current content of `볼트구조.md` (`none` when it
does not exist); the result is the new content together with the sink
state — always `.ok`, since every exception is caught and printed. -/
def update_tree_structure (root : FS) (rootParts : List String) (k : SinkState)
    (file : Option String) : Except String (Option String × SinkState) :=
  match generate_tree_markdown root rootParts k with
  | (.ok content, k') => .ok (some content, k')
  | (.error _, k') => .ok (file, k')

/-! ### Auxiliary definitions for the claims -/

/-- Modelled from the spec's words (claim C2), not from the source: the
`/`-separated segments of an event path, used to state "contains a
configured ignored name as an exact path segment". -/
def chSplit (sep : Char) : List Char → List (List Char)
  | [] => [[]]
  | c :: cs =>
      if c = sep then [] :: chSplit sep cs
      else
        match chSplit sep cs with
        | [] => [[c]]
        | g :: gs => (c :: g) :: gs

/-- Modelled from the spec's words (claim C2): the path's segments. -/
def specPathSegments (s : String) : List String :=
  (chSplit '/' s.data).map String.mk

/-- The scenario snapshot of claim C5: a root containing `notes/a.md`,
`notes/b.md`, `archive/old.md` and `.obsidian/config.json`. -/
def c5root : FS :=
  FS.dir "vault"
    [FS.dir "notes" [FS.file "a.md", FS.file "b.md"],
     FS.dir "archive" [FS.file "old.md"],
     FS.dir ".obsidian" [FS.file "config.json"]]

mutual
/-- Node count of a snapshot (induction measure for claim C10). -/
def FS.sz : FS → Nat
  | .file _ => 1
  | .dirDenied _ => 1
  | .dirError _ _ => 1
  | .dir _ cs => 1 + FS.szL cs

/-- Node count of a forest. -/
def FS.szL : List FS → Nat
  | [] => 0
  | c :: cs => FS.sz c + FS.szL cs
end

/-! ## Theorems -/

/-! ### Shared helper lemmas -/

theorem chLe_total (a : List Char) : ∀ b, chLe a b = true ∨ chLe b a = true := by
  induction a with
  | nil => intro b; left; rfl
  | cons a as ih =>
      intro b
      cases b with
      | nil => right; rfl
      | cons b bs =>
          by_cases h : a = b
          · subst h
            simpa [chLe] using ih bs
          · rcases lt_or_gt_of_ne h with hlt | hgt
            · left; simp [chLe, h, hlt]
            · right; simp [chLe, Ne.symm h, hgt]

theorem chLe_trans : ∀ {a b c : List Char},
    chLe a b = true → chLe b c = true → chLe a c = true := by
  intro a
  induction a with
  | nil => intro b c _ _; rfl
  | cons a as ih =>
      intro b c hab hbc
      cases b with
      | nil => simp [chLe] at hab
      | cons b bs =>
          cases c with
          | nil => simp [chLe] at hbc
          | cons c cs =>
              by_cases h1 : a = b <;> by_cases h2 : b = c
              · subst h1; subst h2
                simp only [chLe, if_pos rfl] at hab hbc ⊢
                exact ih hab hbc
              · subst h1
                simp only [chLe, if_pos rfl] at hab
                simpa [chLe, h2] using hbc
              · subst h2
                simpa [chLe, h1] using hab
              · simp only [chLe, if_neg h1, decide_eq_true_eq] at hab
                simp only [chLe, if_neg h2, decide_eq_true_eq] at hbc
                have hac := lt_trans hab hbc
                simp [chLe, ne_of_lt hac, hac]

theorem chBeginsWith_iff (n : List Char) :
    ∀ h, chBeginsWith n h = true ↔ ∃ r, h = n ++ r := by
  induction n with
  | nil =>
      intro h
      simp [chBeginsWith]
  | cons a as ih =>
      intro h
      cases h with
      | nil =>
          simp [chBeginsWith]
      | cons b bs =>
          simp only [chBeginsWith, Bool.and_eq_true, beq_iff_eq, ih bs, List.cons_append,
            List.cons.injEq]
          constructor
          · rintro ⟨rfl, r, rfl⟩; exact ⟨r, rfl, rfl⟩
          · rintro ⟨r, rfl, rfl⟩; exact ⟨rfl, r, rfl⟩

theorem chHasSub_iff (n : List Char) :
    ∀ h, chHasSub n h = true ↔ ∃ l r, h = l ++ n ++ r := by
  intro h
  induction h with
  | nil =>
      simp only [chHasSub, List.isEmpty_iff]
      constructor
      · rintro rfl; exact ⟨[], [], rfl⟩
      · rintro ⟨l, r, he⟩
        rcases List.append_eq_nil.mp (List.append_eq_nil.mp he.symm).1 with ⟨-, h2⟩
        exact h2
  | cons b bs ih =>
      simp only [chHasSub, Bool.or_eq_true, chBeginsWith_iff, ih]
      constructor
      · rintro (⟨r, hr⟩ | ⟨l, r, hr⟩)
        · exact ⟨[], r, by simpa using hr⟩
        · exact ⟨b :: l, r, by simp [hr]⟩
      · rintro ⟨l, r, hr⟩
        cases l with
        | nil => exact .inl ⟨r, by simpa using hr⟩
        | cons x xs =>
            simp only [List.cons_append, List.cons.injEq] at hr
            exact .inr ⟨xs, r, by simp [hr.2]⟩

theorem FS.sz_pos : ∀ x : FS, 1 ≤ FS.sz x := by
  intro x
  cases x <;> simp [FS.sz]

theorem FS.sz_le_szL {c : FS} {cs : List FS} (h : c ∈ cs) : FS.sz c ≤ FS.szL cs := by
  induction cs with
  | nil => cases h
  | cons d ds ih =>
      rcases List.mem_cons.mp h with rfl | h
      · simp [FS.szL]
      · calc FS.sz c ≤ FS.szL ds := ih h
          _ ≤ FS.sz d + FS.szL ds := Nat.le_add_left _ _
          _ = FS.szL (d :: ds) := rfl

/-! ### C1 — debounce single-flight -/

/-- Any event delivered no more than `update_delay` after the gate time
`t0` is absorbed without touching the state — whether accepted or not. -/
theorem processEvents_absorb (t0 : ℚ) (T : List ℚ) :
    ∀ es : List (FsEvent × ℚ), (∀ p ∈ es, p.2 - t0 ≤ update_delay) →
      processEvents ⟨t0, T⟩ es = ⟨t0, T⟩ := by
  intro es
  induction es with
  | nil => intro _; rfl
  | cons p rest ih =>
      intro h
      have hp : p.2 - t0 ≤ update_delay := (h p (List.mem_cons_self p rest))
      have hstep : on_any_event ⟨t0, T⟩ p.1 p.2 = ⟨t0, T⟩ := by
        unfold on_any_event
        have hng : ¬ update_delay < p.2 - t0 := not_lt.mpr hp
        split
        · rfl
        · split
          · simp only [hng, if_false]
          · rfl
      show processEvents (on_any_event ⟨t0, T⟩ p.1 p.2) rest = _
      rw [hstep]
      exact ih (fun q hq => h q (List.mem_cons_of_mem p hq))

/-- C1 (counterexample). The claim says a burst of accepted events
delivered within less than one quiet window of each other always
schedules exactly one regeneration firing after the window.  But the
handler initialises `last_update` to its own creation time and the gate
compares against that, so a burst beginning within one quiet window of
handler creation schedules none: with the handler created at time 0, two
accepted `.md`-file events at times 1 and 2 (one time unit apart, inside
one quiet window of each other) leave the timer list empty — zero
regenerations are scheduled, not one. -/
theorem c1_counterexample :
    (ignoredEvent "/vault/notes/a.md" = false
      ∧ acceptedEvent ⟨"/vault/notes/a.md", false⟩ = true)
    ∧ ((2 : ℚ) - 1 < update_delay)
    ∧ (processEvents (initWatch 0)
        [(⟨"/vault/notes/a.md", false⟩, 1), (⟨"/vault/notes/a.md", false⟩, 2)]).timers
        = [] := by
  refine ⟨⟨by decide, by decide⟩, by norm_num [update_delay], ?_⟩
  have hig : ignoredEvent "/vault/notes/a.md" = false := by decide
  have hac : acceptedEvent ⟨"/vault/notes/a.md", false⟩ = true := by decide
  simp only [processEvents, on_any_event, hig, hac, initWatch, update_delay]
  norm_num

/-- C1 (amended): provided the first accepted event arrives more than
one quiet window (`update_delay = 2`) after the handler's reference time
(`last_update`: its creation time, or the previously gated trigger), a
burst whose remaining events all fall within one quiet window of the
first schedules exactly one regeneration, which fires one quiet window
after the first event (`t0 + update_delay`); the later events of the
burst neither schedule a second regeneration nor move the fire time, and
`last_update` stays pinned at `t0`. -/
theorem c1_debounce_single_flight (s : WatchState) (e0 : FsEvent) (t0 : ℚ)
    (es : List (FsEvent × ℚ))
    (hign : ignoredEvent e0.src_path = false)
    (hacc : acceptedEvent e0 = true)
    (hgate : update_delay < t0 - s.last_update)
    (hwin : ∀ p ∈ es, t0 ≤ p.2 ∧ p.2 - t0 < update_delay) :
    processEvents s ((e0, t0) :: es) = ⟨t0, s.timers ++ [t0 + update_delay]⟩ := by
  have hstep : on_any_event s e0 t0 = ⟨t0, s.timers ++ [t0 + update_delay]⟩ := by
    unfold on_any_event
    rw [hign, hacc]
    simp only [Bool.false_eq_true, if_false, if_true, if_pos hgate]
  show processEvents (on_any_event s e0 t0) es = _
  rw [hstep]
  exact processEvents_absorb t0 _ es (fun p hp => le_of_lt (hwin p hp).2)

/-- C1 witness: handler created at time 0, accepted events at times 3
and 4; exactly one timer is scheduled, firing at 5. -/
theorem c1_witness :
    (ignoredEvent "/vault/notes/a.md" = false
      ∧ acceptedEvent ⟨"/vault/notes/a.md", false⟩ = true
      ∧ update_delay < (3 : ℚ) - (initWatch 0).last_update
      ∧ ((3 : ℚ) ≤ 4 ∧ (4 : ℚ) - 3 < update_delay))
    ∧ (processEvents (initWatch 0)
        [(⟨"/vault/notes/a.md", false⟩, 3), (⟨"/vault/notes/a.md", false⟩, 4)]).timers
        = [5] := by
  have h := c1_debounce_single_flight (initWatch 0) ⟨"/vault/notes/a.md", false⟩ 3
    [(⟨"/vault/notes/a.md", false⟩, 4)] (by decide) (by decide)
    (by norm_num [update_delay, initWatch])
    (by
      intro p hp
      rcases List.mem_singleton.mp hp with rfl
      exact ⟨by norm_num, by norm_num [update_delay]⟩)
  refine ⟨⟨by decide, by decide, by norm_num [update_delay, initWatch],
    by norm_num, by norm_num [update_delay]⟩, ?_⟩
  rw [h]
  norm_num [initWatch, update_delay]

/-! ### C2 — event filtering by exact segment -/

/-- C2 (counterexample). The claim says the watch controller discards
every event whose path contains a configured ignored name as an exact
path segment, and never discards a path none of whose segments equals an
ignored name.  Both directions fail on the code, whose discard test
(lines 42-43) is substring containment of just `'/.obsidian'` and
`'/.git'`: an event under a `__pycache__` segment (in the configured
ignore set) is **not** discarded, while `/vault/.github/workflow.md` —
none of whose segments equals any configured ignored name — **is**
discarded because `'/.git'` occurs as a substring. -/
theorem c2_counterexample :
    ("__pycache__" ∈ specPathSegments "/vault/__pycache__/cache.md"
      ∧ "__pycache__" ∈ ignorePatternsList
      ∧ ignoredEvent "/vault/__pycache__/cache.md" = false)
    ∧ ((∀ seg ∈ specPathSegments "/vault/.github/workflow.md", seg ∉ ignorePatternsList)
      ∧ ignoredEvent "/vault/.github/workflow.md" = true) := by
  refine ⟨⟨by decide, by decide, by decide⟩, ⟨?_, by decide⟩⟩
  decide

/-- C2 (amended): the watch controller's discard rule is substring
containment of exactly the two patterns `'/.obsidian'` and `'/.git'`: an
event is discarded iff its path splits as `l ++ "/.obsidian" ++ r` or
`l ++ "/.git" ++ r`.  The full configured ignore set with exact
path-segment matching (plus any dot-initial segment) is applied only by
`_should_ignore`, i.e. by the tree renderer and the counter — not by the
event filter. -/
theorem c2_event_filter_substring (path : String) :
    ignoredEvent path = true ↔
      (∃ l r, path.data = l ++ ("/.obsidian").data ++ r)
      ∨ (∃ l r, path.data = l ++ ("/.git").data ++ r) := by
  unfold ignoredEvent strHasSub
  rw [Bool.or_eq_true, chHasSub_iff, chHasSub_iff]

/-- C2 witness: `/vault/.gitignore/x.md` decomposes around the
substring `/.git`, so the amended characterisation discards it. -/
theorem c2_witness : ignoredEvent "/vault/.gitignore/x.md" = true :=
  (c2_event_filter_substring "/vault/.gitignore/x.md").mpr
    (.inr ⟨("/vault").data, ("ignore/x.md").data, by decide⟩)

/-! ### C3 — failure semantics of the tree renderer -/

/-- C3 (counterexample). The claim says a permission failure on reading
the root directory itself is fatal and propagates to the caller as an
error.  In the code the `try/except PermissionError` of
`_generate_tree_structure` encloses the root-level listing too, so a
denied root degrades to the same single marker line, and
`generate_tree_markdown` succeeds (with a working log sink) instead of
raising: nothing propagates. -/
theorem c3_counterexample :
    listingOf (FS.dirDenied "vault") ["vault"] "" = [deniedLine ""]
    ∧ (generate_tree_markdown (FS.dirDenied "vault") ["vault"]
        ⟨some [], true⟩).1.isOk = true := by
  exact ⟨rfl, by decide⟩

/-- C3 (amended): every listing failure is non-fatal and degrades to a
single inline marker, the root included.  A denied directory's listing
is exactly one permission marker line, an otherwise-failing directory's
listing exactly one error marker line; `generate_tree_markdown` on a
denied root still returns a document (no error propagates, given a
working log sink).  A failing entry among siblings contributes its own
label line plus the one marker line, and the loop then continues with
the remaining siblings unchanged. -/
theorem c3_failure_non_fatal :
    (∀ (n : String) (parts : List String) (pfx : String),
        listingOf (FS.dirDenied n) parts pfx = [deniedLine pfx])
    ∧ (∀ (n m : String) (parts : List String) (pfx : String),
        listingOf (FS.dirError n m) parts pfx = [errorLine pfx m])
    ∧ (∀ (n : String) (rootParts : List String) (k : SinkState),
        k.write_ok = true →
          (generate_tree_markdown (FS.dirDenied n) rootParts k).1.isOk = true)
    ∧ (∀ (n : String) (y : FS × RenderFn) (rest : List (FS × RenderFn))
        (parts : List String) (pfx : String),
        linesLoop ((FS.dirDenied n, fun pr pf => listingOf (FS.dirDenied n) pr pf)
            :: y :: rest) parts pfx =
          (pfx ++ "├── " ++ itemLabel (FS.dirDenied n))
            :: deniedLine (pfx ++ "│   ")
            :: linesLoop (y :: rest) parts pfx) := by
  refine ⟨fun n parts pfx => rfl, fun n m parts pfx => rfl, ?_, ?_⟩
  · intro n rootParts k hk
    unfold generate_tree_markdown
    unfold logActivity
    rw [hk]
    simp only [if_true]
    rfl
  · intro n y rest parts pfx
    rfl

/-- C3 witness: the non-fatality of a denied root, applied at a concrete
root and sink. -/
theorem c3_witness :
    (⟨some [], true⟩ : SinkState).write_ok = true
    ∧ (generate_tree_markdown (FS.dirDenied "v") ["v"] ⟨some [], true⟩).1.isOk = true :=
  ⟨rfl, c3_failure_non_fatal.2.2.1 "v" ["v"] ⟨some [], true⟩ rfl⟩

/-! ### C4 — sink failures -/

/-- C4 (counterexample). The claim says a failing log-sink write never
propagates to the caller of the operation being logged.  But
`log_activity` does not guard its writes, and the error-path
`log_activity` calls in `stop_watching` / `start_watching` sit outside
any `try`: with a sink whose writes fail, `stop_watching` on an active
session raises to its caller. -/
theorem c4_counterexample :
    stop_watching_logged
        ⟨true, some 0, 1, true, [], 1, []⟩ ⟨some [], false⟩
      = .error "sink write failed" := by
  rfl

/-- C4 (amended): only the JSON-log *read* failure is swallowed inside
the sink — `log_activity` succeeds whenever writes succeed, even with a
missing/unreadable JSON log — whereas a failing sink *write* raises out
of `log_activity`; in `stop_watching` the success-path log call is
absorbed by the operation's own `except` block, but the error-path
re-log is unprotected, so a persistent write failure propagates to
`stop_watching`'s caller.  `update_tree_structure` still shields its
caller through its own catch-all, leaving the output file untouched. -/
theorem c4_sink_failure :
    (∀ (k : SinkState) (e : LogEntryM), k.write_ok = true →
        (logActivity k e).isOk = true)
    ∧ (∀ (s : MgrState) (k : SinkState),
        s.is_watching = true → s.observer.isSome = true → k.write_ok = false →
          stop_watching_logged s k = .error "sink write failed")
    ∧ (∀ (root : FS) (rootParts : List String) (k : SinkState) (file : Option String),
        k.write_ok = false →
          update_tree_structure root rootParts k file = .ok (file, k)) := by
  refine ⟨?_, ?_, ?_⟩
  · intro k e hk
    unfold logActivity
    rw [hk]
    simp only [if_true]
    rfl
  · intro s k hw hobs hk
    unfold stop_watching_logged
    rw [hw]
    rw [Option.isSome_iff_exists] at hobs
    rcases hobs with ⟨a, ha⟩
    rw [ha]
    simp only [Bool.not_true, Option.isNone_some, Bool.or_self, Bool.false_eq_true, if_false]
    unfold logActivity
    rw [hk]
    rfl
  · intro root rootParts k file hk
    unfold update_tree_structure generate_tree_markdown
    unfold logActivity
    rw [hk]
    rfl

/-- C4 witness: a watching session with a write-failing sink — the
exception reaches `stop_watching`'s caller, while
`update_tree_structure` still absorbs it. -/
theorem c4_witness :
    ((⟨true, some 3, 4, true, [], 2, []⟩ : MgrState).is_watching = true
      ∧ (some 3 : Option Nat).isSome = true
      ∧ (⟨none, false⟩ : SinkState).write_ok = false)
    ∧ stop_watching_logged ⟨true, some 3, 4, true, [], 2, []⟩ ⟨none, false⟩
        = .error "sink write failed"
    ∧ update_tree_structure c5root ["vault"] ⟨none, false⟩ (some "old")
        = .ok (some "old", ⟨none, false⟩) :=
  ⟨⟨rfl, rfl, rfl⟩,
    c4_sink_failure.2.1 ⟨true, some 3, 4, true, [], 2, []⟩ ⟨none, false⟩ rfl rfl rfl,
    c4_sink_failure.2.2 c5root ["vault"] ⟨none, false⟩ (some "old") rfl⟩

/-! ### C5 — statistics scenario -/

/-- C5 (confirmed). For the scenario root containing `notes/a.md`,
`notes/b.md`, `archive/old.md` and `.obsidian/config.json`:
`_count_items` yields `{total_folders: 2, total_files: 3, md_files: 3,
other_files: 0}` — the `.obsidian` folder and its content are skipped —
and the rendered tree body lists `archive`/`notes` with their notes
only, no line mentioning `.obsidian`. -/
theorem c5_statistics_scenario :
    count_items c5root ["vault"] = ⟨2, 3, 3, 0⟩
    ∧ listingOf c5root ["vault"] "" =
        ["├── 📁 **archive**", "│   └── 📝 old.md", "└── 📁 **notes**",
         "    ├── 📝 a.md", "    └── 📝 b.md"]
    ∧ (listingOf c5root ["vault"] "").all (fun l => !strHasSub ".obsidian" l) = true := by
  refine ⟨by decide, by decide, by decide⟩

/-! ### C7 — stop and pending work -/

/-- C7 (counterexample). The claim says `stop()` cancels a scheduled
but not-yet-fired regeneration.  The source never stores a reference to
a started `threading.Timer` and never calls `cancel()`: stopping a
watching session with one pending regeneration (fire time 5) releases
the listener but leaves the pending timer in place — it will still
fire. -/
theorem c7_counterexample :
    (⟨true, some 0, 1, true, [5], 1, []⟩ : MgrState).is_watching = true
    ∧ (stop_watching ⟨true, some 0, 1, true, [5], 1, []⟩).pending_timers = [5]
    ∧ (stop_watching ⟨true, some 0, 1, true, [5], 1, []⟩).observer_running = false := by
  refine ⟨rfl, by norm_num [stop_watching], by norm_num [stop_watching]⟩

/-- C7 (amended): `stop()` on an active session releases the background
listener (`observer.stop(); observer.join()`) and clears the active
flag, but does not cancel pending regenerations: the scheduled timers
are exactly those of the pre-stop state, so a regeneration scheduled
before `stop()` and not yet fired still fires after `stop()` returns. -/
theorem c7_stop_releases_listener (s : MgrState)
    (hw : s.is_watching = true) (hobs : s.observer.isSome = true) :
    (stop_watching s).is_watching = false
    ∧ (stop_watching s).observer_running = false
    ∧ (stop_watching s).pending_timers = s.pending_timers
    ∧ (stop_watching s).observer = s.observer := by
  rw [Option.isSome_iff_exists] at hobs
  rcases hobs with ⟨a, ha⟩
  unfold stop_watching
  rw [hw, ha]
  exact ⟨rfl, rfl, rfl, rfl⟩

/-- C7 witness: a concrete active session with a pending timer at 7. -/
theorem c7_witness :
    ((⟨true, some 2, 3, true, [7], 4, []⟩ : MgrState).is_watching = true
      ∧ (⟨true, some 2, 3, true, [7], 4, []⟩ : MgrState).observer.isSome = true)
    ∧ (stop_watching ⟨true, some 2, 3, true, [7], 4, []⟩).is_watching = false
    ∧ (stop_watching ⟨true, some 2, 3, true, [7], 4, []⟩).pending_timers = [7] :=
  ⟨⟨rfl, rfl⟩,
    (c7_stop_releases_listener ⟨true, some 2, 3, true, [7], 4, []⟩ rfl rfl).1,
    (c7_stop_releases_listener ⟨true, some 2, 3, true, [7], 4, []⟩ rfl rfl).2.2.1⟩

/-! ### C8 — start while active -/

/-- C8 (confirmed): `start_watching` on an already-active session only
prints the warning: the stored observer handle is untouched, no new
observer is constructed, no output-file write happens, the active flag
stays `true`, the log sink is not even consulted, and the only change is
the appended warning message. -/
theorem c8_start_while_active (s : MgrState) (k : SinkState)
    (hw : s.is_watching = true) :
    start_watching_logged s k
      = .ok ({ s with warnings :=
          s.warnings ++ ["⚠️ 이미 감시 중입니다. / Already watching."] }, k)
    ∧ (start_watching s).observer = s.observer
    ∧ (start_watching s).observers_created = s.observers_created
    ∧ (start_watching s).tree_writes = s.tree_writes
    ∧ (start_watching s).is_watching = true
    ∧ (start_watching s).warnings
        = s.warnings ++ ["⚠️ 이미 감시 중입니다. / Already watching."] := by
  unfold start_watching_logged start_watching
  rw [hw]
  exact ⟨rfl, rfl, rfl, rfl, rfl, rfl⟩

/-- C8 witness: a concrete active session. -/
theorem c8_witness :
    (⟨true, some 0, 1, false, [], 1, []⟩ : MgrState).is_watching = true
    ∧ start_watching_logged ⟨true, some 0, 1, false, [], 1, []⟩ ⟨some [], true⟩
        = .ok (⟨true, some 0, 1, false, [], 1,
            ["⚠️ 이미 감시 중입니다. / Already watching."]⟩, ⟨some [], true⟩) :=
  ⟨rfl,
    (c8_start_while_active ⟨true, some 0, 1, false, [], 1, []⟩ ⟨some [], true⟩ rfl).1⟩

/-! ### C9 — update_tree_structure never raises -/

/-- C9 (confirmed): `update_tree_structure`'s whole body sits in a
catch-all `try/except` that only prints, so it never raises to its
caller; and since `open(self.tree_file, 'w')` runs only after
`generate_tree_markdown()` has returned, a failing generation leaves the
output file's previous content untouched. -/
theorem c9_update_never_raises (root : FS) (rootParts : List String)
    (k : SinkState) (file : Option String) :
    (update_tree_structure root rootParts k file).isOk = true
    ∧ ((generate_tree_markdown root rootParts k).1.isOk = false →
        update_tree_structure root rootParts k file
          = .ok (file, (generate_tree_markdown root rootParts k).2)) := by
  rcases hgen : generate_tree_markdown root rootParts k with ⟨res, k1⟩
  unfold update_tree_structure
  rw [hgen]
  cases res with
  | ok c =>
      refine ⟨rfl, ?_⟩
      intro hbad
      exact absurd hbad (fun h => Bool.noConfusion ((rfl : (Except.ok c).isOk = true).symm.trans h))
  | error e =>
      exact ⟨rfl, fun _ => rfl⟩

/-- C9 witness: a write-failing sink makes `generate_tree_markdown`
raise; `update_tree_structure` still returns normally and keeps the
previous file content `"old"`. -/
theorem c9_witness :
    (generate_tree_markdown c5root ["vault"] ⟨none, false⟩).1.isOk = false
    ∧ update_tree_structure c5root ["vault"] ⟨none, false⟩ (some "old")
        = .ok (some "old", (generate_tree_markdown c5root ["vault"] ⟨none, false⟩).2) :=
  ⟨rfl, (c9_update_never_raises c5root ["vault"] ⟨none, false⟩ (some "old")).2 rfl⟩

/-! ### C6 — rendering order -/

/-- C6 (confirmed): in every rendered directory, the iterated entry list
splits as directories-then-files — every entry of the first block is a
directory, every entry of the second a supported-extension file — and
each block is lexicographically non-decreasing by name (`pairNameLe`,
Python's string order on the entries' names); `listingOf` emits the
lines in exactly that order. -/
theorem c6_rendering_order (n : String) (cs : List FS)
    (parts : List String) (pfx : String) :
    ∃ ds fs, orderedPairs parts (subFns cs) = ds ++ fs
      ∧ (∀ p ∈ ds, p.1.isDir = true)
      ∧ (∀ p ∈ fs, p.1.isDir = false ∧ hasSupportedExt p.1.name = true)
      ∧ ds.Pairwise pairNameLe
      ∧ fs.Pairwise pairNameLe
      ∧ listingOf (FS.dir n cs) parts pfx = linesLoop (ds ++ fs) parts pfx := by
  haveI htot : IsTotal (FS × RenderFn) pairNameLe := ⟨fun p q => chLe_total _ _⟩
  haveI htr : IsTrans (FS × RenderFn) pairNameLe :=
    ⟨fun _ _ _ hab hbc => chLe_trans hab hbc⟩
  let items := (subFns cs).filter (fun p => !shouldIgnore (parts ++ [p.1.name]))
  refine ⟨List.insertionSort pairNameLe (items.filter (fun p => p.1.isDir)),
    List.insertionSort pairNameLe
      (items.filter (fun p => !p.1.isDir && hasSupportedExt p.1.name)),
    rfl, ?_, ?_, ?_, ?_, rfl⟩
  · intro p hp
    rw [List.mem_insertionSort] at hp
    exact (List.mem_filter.mp hp).2
  · intro p hp
    rw [List.mem_insertionSort] at hp
    have h := (List.mem_filter.mp hp).2
    simp only [Bool.and_eq_true, Bool.not_eq_true'] at h
    exact h
  · exact List.sorted_insertionSort pairNameLe _
  · exact List.sorted_insertionSort pairNameLe _

/-- C6 witness: the ordering statement applied to the scenario root's
children. -/
theorem c6_witness :
    ∃ ds fs, orderedPairs ["vault"]
        (subFns [FS.dir "notes" [FS.file "a.md", FS.file "b.md"],
          FS.dir "archive" [FS.file "old.md"],
          FS.dir ".obsidian" [FS.file "config.json"]]) = ds ++ fs
      ∧ (∀ p ∈ ds, p.1.isDir = true)
      ∧ (∀ p ∈ fs, p.1.isDir = false ∧ hasSupportedExt p.1.name = true)
      ∧ ds.Pairwise pairNameLe
      ∧ fs.Pairwise pairNameLe
      ∧ listingOf (FS.dir "vault" [FS.dir "notes" [FS.file "a.md", FS.file "b.md"],
          FS.dir "archive" [FS.file "old.md"],
          FS.dir ".obsidian" [FS.file "config.json"]]) ["vault"] ""
          = linesLoop (ds ++ fs) ["vault"] "" :=
  c6_rendering_order "vault" _ ["vault"] ""

/-! ### C10 — counter invariant -/

/-- The counter invariant is preserved by summing contributions. -/
theorem statsAdd_bound {a b : TreeStats}
    (ha : a.md_files + a.other_files ≤ a.total_files)
    (hb : b.md_files + b.other_files ≤ b.total_files) :
    (statsAdd a b).md_files + (statsAdd a b).other_files
      ≤ (statsAdd a b).total_files := by
  simp only [statsAdd]
  omega

/-- Joint size-bounded induction for `countNode` / `countList`. -/
theorem count_bound_aux : ∀ N : Nat,
    (∀ (pp : List String) (x : FS), FS.sz x ≤ N →
      (countNode pp x).md_files + (countNode pp x).other_files
        ≤ (countNode pp x).total_files)
    ∧ (∀ (pp : List String) (cs : List FS), FS.szL cs ≤ N →
      (countList pp cs).md_files + (countList pp cs).other_files
        ≤ (countList pp cs).total_files) := by
  intro N
  induction N with
  | zero =>
      constructor
      · intro pp x hx
        have := FS.sz_pos x
        omega
      · intro pp cs hcs
        cases cs with
        | nil => simp [countList, statsZero]
        | cons c cs2 =>
            have := FS.sz_pos c
            simp only [FS.szL] at hcs
            omega
  | succ N ih =>
      have hnode : ∀ (pp : List String) (x : FS), FS.sz x ≤ N + 1 →
          (countNode pp x).md_files + (countNode pp x).other_files
            ≤ (countNode pp x).total_files := by
        intro pp x hx
        cases x with
        | file n =>
            unfold countNode
            split
            · simp [statsZero]
            · simp only [fileStats]
              split_ifs <;> simp
        | dirDenied n =>
            unfold countNode
            split <;> simp [statsZero, folderStats]
        | dirError n m =>
            unfold countNode
            split <;> simp [statsZero, folderStats]
        | dir n cs =>
            have hcs : FS.szL cs ≤ N := by
              simp only [FS.sz] at hx
              omega
            unfold countNode
            refine statsAdd_bound ?_ (ih.2 (pp ++ [n]) cs hcs)
            split <;> simp [statsZero, folderStats]
      refine ⟨hnode, ?_⟩
      intro pp cs hcs
      cases cs with
      | nil => simp [countList, statsZero]
      | cons c cs2 =>
          have h1 : FS.sz c ≤ N + 1 := by
            simp only [FS.szL] at hcs
            omega
          have h2 : FS.szL cs2 ≤ N := by
            have := FS.sz_pos c
            simp only [FS.szL] at hcs
            omega
          unfold countList
          exact statsAdd_bound (hnode pp c h1) (ih.2 pp cs2 h2)

/-- C10 (confirmed): (1) over any subtree,
`md_files + other_files ≤ total_files` — every non-ignored file counts
once into `total_files` and at most once into `md_files` (when its
suffix is `.md`) or `other_files` (`elif` a supported extension); (2) a
non-ignored file contributes `1` to `total_files` regardless of its
extension, to `md_files` exactly when its suffix is `.md`, and to
`other_files` exactly when it is a non-`.md` supported name; (3) the
renderer's entry list contains only directories and supported-extension
files, so an unsupported file never gets a line in the tree body. -/
theorem c10_counter_invariant :
    (∀ (pp : List String) (x : FS),
        (countNode pp x).md_files + (countNode pp x).other_files
          ≤ (countNode pp x).total_files)
    ∧ (∀ (pp : List String) (n : String), shouldIgnore (pp ++ [n]) = false →
        (countNode pp (FS.file n)).total_files = 1
        ∧ (countNode pp (FS.file n)).md_files
            = (if pySuffix n = ".md" then 1 else 0)
        ∧ (countNode pp (FS.file n)).other_files
            = (if pySuffix n = ".md" then 0 else if hasSupportedExt n then 1 else 0))
    ∧ (∀ (parts : List String) (subs : List (FS × RenderFn)) (p : FS × RenderFn),
        p ∈ orderedPairs parts subs →
          p.1.isDir = true ∨ hasSupportedExt p.1.name = true) := by
  refine ⟨fun pp x => (count_bound_aux (FS.sz x)).1 pp x le_rfl, ?_, ?_⟩
  · intro pp n h
    refine ⟨?_, ?_, ?_⟩ <;> simp [countNode, h, fileStats]
  · intro parts subs p hp
    simp only [orderedPairs, List.mem_append] at hp
    rcases hp with hp | hp
    · left
      rw [List.mem_insertionSort] at hp
      exact (List.mem_filter.mp hp).2
    · right
      rw [List.mem_insertionSort] at hp
      have h2 := (List.mem_filter.mp hp).2
      simp only [Bool.and_eq_true] at h2
      exact h2.2

/-- C10 witness: the unsupported file `data.csv` counts into
`total_files` but into neither `md_files` nor `other_files`. -/
theorem c10_witness :
    shouldIgnore (["vault"] ++ ["data.csv"]) = false
    ∧ (countNode ["vault"] (FS.file "data.csv")).total_files = 1
    ∧ (countNode ["vault"] (FS.file "data.csv")).md_files = 0
    ∧ (countNode ["vault"] (FS.file "data.csv")).other_files = 0 :=
  ⟨by decide,
   (c10_counter_invariant.2.1 ["vault"] "data.csv" (by decide)).1,
   ((c10_counter_invariant.2.1 ["vault"] "data.csv" (by decide)).2.1).trans (by decide),
   ((c10_counter_invariant.2.1 ["vault"] "data.csv" (by decide)).2.2).trans (by decide)⟩
